import Mathlib

/-!
Shallow embedding of the self-healing cache subsystem of the gemini-chatbot
repository: `app/services/api_service.py` (ApiService: persistent JSON cache,
data-quality validator, fetch-through orchestration) and
`app/services/cache_monitor.py` (CacheHealthMonitor: the health-check tick).

Modelling conventions:
- The on-disk JSON document is passed explicitly; `_load_cache` / `_save_cache`
  become explicit state passing.  Functions that persist the document return
  the new document; where the trace of `_save_cache` calls matters the list of
  saved documents is returned as well.
- Python dicts become association lists over `String` keys; `dictSet` replaces
  in place (Python dicts keep insertion position on overwrite) and appends new
  keys, `dictDel` removes a key.
- `datetime` timestamps become integers (seconds); `timedelta(hours=24)`
  becomes the constant `cacheDuration`.  An unparsable `last_fetch_time`
  string behaves exactly like `null` in `_is_cache_valid` (both yield False),
  so both are modelled as `none`.  Each API-level operation runs at a single
  instant `now`.
- A student record is the dict produced by the GraphQL `students` query;
  fields are `Option`-valued (`none` = key absent), and `.get(k, d)` becomes
  `Option.getD`.  The Python key `section` is a Lean keyword and is modelled
  as the field `sectionName`.
- A record-set value (`{"students": [...]}`) keeps its `students` member as an
  `Option (List StudentRecord)` so that a dict without the `"students"` key
  (count 0 via `result.get('students', [])`) is distinguishable from one whose
  list is empty, as in Python.
- Payloads whose internals no operation inspects (the `batches` result,
  contest leaderboards, contest title lists) are abstracted as opaque `Nat`
  identifiers.
- `make_graphql_request` raising (transport or GraphQL protocol error) is an
  upstream outcome `UpOutcome.err`; Python `raise` propagation is the
  `Except.error` constructor of the translated function.
-/

/-! ## Python dict operations on association lists -/

def dictGet {α : Type} : List (String × α) → String → Option α
  | [], _ => none
  | (k2, v) :: rest, k => if k2 = k then some v else dictGet rest k

def dictHas {α : Type} (d : List (String × α)) (k : String) : Bool :=
  (dictGet d k).isSome

def dictSet {α : Type} : List (String × α) → String → α → List (String × α)
  | [], k, v => [(k, v)]
  | (k2, v2) :: rest, k, v =>
      if k2 = k then (k2, v) :: rest else (k2, v2) :: dictSet rest k v

def dictDel {α : Type} : List (String × α) → String → List (String × α)
  | [], _ => []
  | (k2, v2) :: rest, k =>
      if k2 = k then dictDel rest k else (k2, v2) :: dictDel rest k

/-! ## Data model -/

abbrev Time := Int

/-- `self.cache_duration = timedelta(hours=24)`, in seconds. -/
def cacheDuration : Int := 24 * 60 * 60

/-- One student record as returned by the GraphQL `students` query and stored
in the cache.  `none` models an absent key.  Python key `section` is the field
`sectionName`. -/
structure StudentRecord where
  id : Option String
  name : Option String
  leetcodeUsername : Option String
  sectionName : Option String
  rollNumber : Option String
  rating : Option Int
  totalSolved : Option Int
  easySolved : Option Int
  mediumSolved : Option Int
  hardSolved : Option Int
  attendedContestsCount : Option Int
deriving DecidableEq

/-- A record-set value `{"students": [...]}`; `students = none` models a dict
without the `"students"` key (as when the upstream reply was `{}`). -/
structure RecordSet where
  students : Option (List StudentRecord)
deriving DecidableEq

/-- `{"students": []}` — the canonical empty record set (line 394/396). -/
def emptyRecordSet : RecordSet := ⟨some []⟩

/-- `len(result.get('students', []))`. -/
def studentCount (rs : RecordSet) : Nat := (rs.students.getD []).length

/-- Value stored at `data[category]`.  The `students` category holds a map
batch -> record set; the contest categories hold maps key -> opaque payload;
anything else (e.g. the `batches` result) is an opaque payload. -/
inductive CacheVal where
  | smap (m : List (String × RecordSet))
  | cmap (m : List (String × Nat))
  | raw (v : Nat)
deriving DecidableEq

/-- The whole on-disk document `{"last_fetch_time": ..., "data": {...}}`. -/
structure CacheDoc where
  lastFetchTime : Option Time
  data : List (String × CacheVal)
deriving DecidableEq

/-! ## CacheManager: validity, get, put, targeted invalidation -/

/-- `_is_cache_valid` (api_service.py lines 37-47). -/
def isCacheValid (doc : CacheDoc) (now : Time) : Bool :=
  match doc.lastFetchTime with
  | none => false
  | some t => now - t < cacheDuration

/-- `_get_from_cache` (lines 49-54): the per-category value if the document is
valid, otherwise a miss.  Python returns `{}` for a miss; callers only test
truthiness / membership, so the miss is modelled as `none`. -/
def getFromCache (doc : CacheDoc) (now : Time) (key : String) : Option CacheVal :=
  if isCacheValid doc now then dictGet doc.data key else none

/-- `_update_cache` (lines 56-63): set `data[key]`, reset the single global
`last_fetch_time` to now, save. -/
def updateCache (doc : CacheDoc) (now : Time) (key : String) (v : CacheVal) : CacheDoc :=
  { lastFetchTime := some now, data := dictSet doc.data key v }

/-- `clear_cache_for_batch` (lines 65-76).  Second component: whether
`_save_cache` was called (the document was written). -/
def clearCacheForBatch (doc : CacheDoc) (batch : String) : CacheDoc × Bool :=
  match dictGet doc.data "students" with
  | some (CacheVal.smap m) =>
      if dictHas m batch then
        ({ doc with data := dictSet doc.data "students" (CacheVal.smap (dictDel m batch)) }, true)
      else (doc, false)
  | _ => (doc, false)

/-! ## DataQualityValidator -/

/-- `['batch22-26']` — the known-empty allow-list (lines 120, 208, 313, 365, 374). -/
def knownEmptyBatches : List String := ["batch22-26"]

/-- Python truthiness of an optional string value: `None` and `""` are falsy. -/
def pyTruthyStr : Option String → Bool
  | none => false
  | some s => !(s == "")

def missingUsernameMessage (s : StudentRecord) : String :=
  "Missing leetcodeUsername for student " ++ s.id.getD "unknown"

def missingNameMessage (s : StudentRecord) : String :=
  "Missing name for student " ++ s.id.getD "unknown"

def suspiciousRatingMessage (s : StudentRecord) (r : Int) : String :=
  "Suspicious rating " ++ toString r ++ " for " ++ s.leetcodeUsername.getD "unknown"

def countMismatchMessage (s : StudentRecord) : String :=
  "Problem count mismatch for " ++ s.leetcodeUsername.getD "unknown" ++
    ": total=" ++ toString (s.totalSolved.getD 0) ++
    ", sum=" ++ toString (s.easySolved.getD 0 + s.mediumSolved.getD 0 + s.hardSolved.getD 0)

def unrealisticTotalMessage (s : StudentRecord) : String :=
  "Unrealistic total problems " ++ toString (s.totalSolved.getD 0) ++
    " for " ++ s.leetcodeUsername.getD "unknown"

def negativeCountsMessage (s : StudentRecord) : String :=
  "Negative problem counts for " ++ s.leetcodeUsername.getD "unknown"

def suspiciousContestMessage (s : StudentRecord) : String :=
  "Suspicious contest count " ++ toString (s.attendedContestsCount.getD 0) ++
    " for " ++ s.leetcodeUsername.getD "unknown"

def missingSectionMessage (s : StudentRecord) : String :=
  "Missing section for " ++ s.leetcodeUsername.getD "unknown"

def missingRollMessage (s : StudentRecord) : String :=
  "Missing roll number for " ++ s.leetcodeUsername.getD "unknown"

/-- The per-student body of `_validate_student_data_quality` (lines 157-201):
the nine checks, in source order, each appending at most one issue. -/
def studentIssues (s : StudentRecord) : List String :=
  let totalSolved := s.totalSolved.getD 0
  let easySolved := s.easySolved.getD 0
  let mediumSolved := s.mediumSolved.getD 0
  let hardSolved := s.hardSolved.getD 0
  let attendedContests := s.attendedContestsCount.getD 0
  (if pyTruthyStr s.leetcodeUsername then [] else [missingUsernameMessage s]) ++
  (if pyTruthyStr s.name then [] else [missingNameMessage s]) ++
  (match s.rating with
   | none => []
   | some r => if r < 0 ∨ r > 4000 then [suspiciousRatingMessage s r] else []) ++
  (if totalSolved ≠ easySolved + mediumSolved + hardSolved then [countMismatchMessage s] else []) ++
  (if totalSolved > 3000 then [unrealisticTotalMessage s] else []) ++
  (if [easySolved, mediumSolved, hardSolved, totalSolved].any (fun c => decide (c < 0))
     then [negativeCountsMessage s] else []) ++
  (if attendedContests < 0 ∨ attendedContests > 1000 then [suspiciousContestMessage s] else []) ++
  (if pyTruthyStr s.sectionName then [] else [missingSectionMessage s]) ++
  (if pyTruthyStr s.rollNumber then [] else [missingRollMessage s])

/-- Python `sep.join(parts)`. -/
def pyJoin (sep : String) : List String → String
  | [] => ""
  | [x] => x
  | x :: y :: rest => x ++ sep ++ pyJoin sep (y :: rest)

/-- `_validate_student_data_quality` (lines 153-203): concatenated findings of
all records, joined with "; ", or `None` when there are none. -/
def validateStudentDataQuality (students : List StudentRecord) : Option String :=
  let issues := (students.map studentIssues).flatten
  if issues.isEmpty then none else some (pyJoin "; " issues)

/-! ## Cache health status and auto-repair -/

/-- Running tallies of the loop in `get_cache_health_status` (lines 220-241). -/
structure BatchTallies where
  total : Nat
  healthy : Nat
  problematic : List String
  empty : List String
  issues : List (String × String × Nat)
deriving DecidableEq

/-- The per-batch classification loop of `get_cache_health_status`, in
iteration order (recursing on the tail reproduces the append order of the
Python loop). -/
def tallyBatches : List (String × RecordSet) → BatchTallies
  | [] => ⟨0, 0, [], [], []⟩
  | (batch, data) :: rest =>
      let students := data.students.getD []
      let count := students.length
      let r := tallyBatches rest
      if count > 0 then
        let dq := validateStudentDataQuality students
        if pyTruthyStr dq then
          { r with total := r.total + 1,
                   problematic := batch :: r.problematic,
                   issues := (batch, dq.getD "", count) :: r.issues }
        else
          { r with total := r.total + 1, healthy := r.healthy + 1 }
      else if knownEmptyBatches.contains batch then
        { r with total := r.total + 1, empty := batch :: r.empty }
      else
        { r with total := r.total + 1, problematic := batch :: r.problematic }

structure HealthStatus where
  overallHealth : String
  totalBatches : Nat
  healthyBatches : Nat
  problematicBatches : List String
  emptyBatches : List String
  dataQualityIssues : List (String × String × Nat)
  lastValidation : Option Time
deriving DecidableEq

/-- `get_cache_health_status` (lines 205-249).  Note: it loads the raw
document and never consults `_is_cache_valid`. -/
def getCacheHealthStatus (doc : CacheDoc) : HealthStatus :=
  let t := match dictGet doc.data "students" with
           | some (CacheVal.smap m) => tallyBatches m
           | _ => (⟨0, 0, [], [], []⟩ : BatchTallies)
  let overall := if t.problematic.isEmpty then
                   (if t.healthy = 0 then "empty" else "healthy")
                 else "needs_attention"
  ⟨overall, t.total, t.healthy, t.problematic, t.empty, t.issues, doc.lastFetchTime⟩

/-- The problematic-batch collection loop of `auto_validate_cache`
(lines 123-137), in iteration order. -/
def autoValidProblematic : List (String × RecordSet) → List String
  | [] => []
  | (batch, data) :: rest =>
      let students := data.students.getD []
      let count := students.length
      if count = 0 ∧ ¬ knownEmptyBatches.contains batch then
        batch :: autoValidProblematic rest
      else if count > 0 ∧ pyTruthyStr (validateStudentDataQuality students) then
        batch :: autoValidProblematic rest
      else
        autoValidProblematic rest

/-- `auto_validate_cache` (lines 110-151).  Second component: whether
`_save_cache` was called. -/
def autoValidateCache (doc : CacheDoc) (now : Time) : CacheDoc × Bool :=
  if !(isCacheValid doc now) then (doc, false)
  else
    match dictGet doc.data "students" with
    | some (CacheVal.smap m) =>
        let probs := autoValidProblematic m
        if probs.isEmpty then (doc, false)
        else
          let cleaned := CacheVal.smap (probs.foldl dictDel m)
          ({ doc with data := dictSet doc.data "students" cleaned }, true)
    | _ => (doc, false)

/-- One tick of the background monitor: `_check_cache_health`
(cache_monitor.py lines 48-65).  Returns the health snapshot it computed and
the document after any repair. -/
def checkCacheHealth (doc : CacheDoc) (now : Time) : HealthStatus × CacheDoc :=
  let hs := getCacheHealthStatus doc
  if hs.overallHealth = "needs_attention" then (hs, (autoValidateCache doc now).1)
  else (hs, doc)

/-! ## FetchOrchestrator: get_students_by_batch -/

/-- Outcome of one `make_graphql_request` call for the students query:
a record set, or a raised exception (transport or protocol error). -/
inductive UpOutcome where
  | ok (rs : RecordSet)
  | err (msg : String)
deriving DecidableEq

/-- Result of `get_students_by_batch`: the returned record set, the final
persisted document, the number of upstream calls made, and the list of
documents passed to `_save_cache`, in order. -/
structure FetchOut where
  result : RecordSet
  doc : CacheDoc
  calls : Nat
  saves : List CacheDoc
deriving DecidableEq

/-- `self._get_from_cache("students")` coerced to the batch map it is used as
(`{}` on a miss, also the `or {}` at lines 358/375/502/525). -/
def cachedStudentsMap (doc : CacheDoc) (now : Time) : List (String × RecordSet) :=
  match getFromCache doc now "students" with
  | some (CacheVal.smap m) => m
  | _ => []

/-- Python `==` between a student-record dict and a string: always False. -/
def pyEqRecordStr (_r : StudentRecord) (_s : String) : Bool := false

/-- The guard of the stale-entry delete at lines 320-321:
`"data" in cached_data and "students" in cached_data["data"]` followed by
`batch in cached_data["data"]["students"]`.  Here `cached_data` is the
per-category batch map, so `"data"` is looked up as a batch name, membership
of `"students"` in the record set found there is its key test, and the final
`in` compares the string `batch` against the student-record dicts of a list. -/
def staleDeleteGuard (cached : List (String × RecordSet)) (batch : String) : Bool :=
  match dictGet cached "data" with
  | some rs => rs.students.isSome && (rs.students.getD []).any (fun r => pyEqRecordStr r batch)
  | none => false

/-- The retry loop of `get_students_by_batch` (lines 326-396).  `fuel` counts
the remaining iterations of `for attempt in range(3)` (so `fuel > 0` after the
current one is `attempt < max_retries - 1`); `attempt` indexes `upstream`. -/
def fetchAttempts (doc : CacheDoc) (now : Time) (batch : String)
    (origCached : List (String × RecordSet)) (upstream : Nat → UpOutcome) :
    Nat → Nat → Nat → List CacheDoc → Except String FetchOut
  | 0, _, calls, saves =>
      -- line 396, reached only if the loop finishes without returning
      Except.ok ⟨emptyRecordSet, doc, calls, saves⟩
  | fuel + 1, attempt, calls, saves =>
      match upstream attempt with
      | UpOutcome.ok result =>
          if studentCount result > 0 then
            -- lines 357-362: merge into a fresh read of the cache and put
            let m := cachedStudentsMap doc now
            let newDoc := updateCache doc now "students" (CacheVal.smap (dictSet m batch result))
            Except.ok ⟨result, newDoc, calls + 1, saves ++ [newDoc]⟩
          else if !(knownEmptyBatches.contains batch) then
            -- lines 365-371: empty result for a non-known-empty batch
            if fuel > 0 then
              fetchAttempts doc now batch origCached upstream fuel (attempt + 1) (calls + 1) saves
            else
              Except.ok ⟨result, doc, calls + 1, saves⟩
          else
            -- lines 373-379: known-empty batch, cache the empty result
            let m := cachedStudentsMap doc now
            let newDoc := updateCache doc now "students" (CacheVal.smap (dictSet m batch result))
            Except.ok ⟨result, newDoc, calls + 1, saves ++ [newDoc]⟩
      | UpOutcome.err _ =>
          -- lines 381-394
          if fuel > 0 then
            fetchAttempts doc now batch origCached upstream fuel (attempt + 1) (calls + 1) saves
          else if !origCached.isEmpty && dictHas origCached batch then
            Except.ok ⟨(dictGet origCached batch).getD emptyRecordSet, doc, calls + 1, saves⟩
          else
            Except.ok ⟨emptyRecordSet, doc, calls + 1, saves⟩

/-- `get_students_by_batch` (lines 300-396). -/
def getStudentsByBatch (doc : CacheDoc) (now : Time) (batch : String)
    (upstream : Nat → UpOutcome) : Except String FetchOut :=
  let cached := cachedStudentsMap doc now
  if !cached.isEmpty && dictHas cached batch then
    let cachedResult := (dictGet cached batch).getD emptyRecordSet
    if studentCount cachedResult > 0 then
      Except.ok ⟨cachedResult, doc, 0, []⟩
    else if knownEmptyBatches.contains batch then
      Except.ok ⟨cachedResult, doc, 0, []⟩
    else if staleDeleteGuard cached batch then
      -- `del cached_data["data"]["students"][batch]` would index a list with
      -- a string and raise; the guard above never holds, so this is dead
      Except.error "TypeError: list indices must be integers or slices, not str"
    else
      fetchAttempts doc now batch cached upstream 3 0 0 []
  else
    fetchAttempts doc now batch cached upstream 3 0 0 []

/-! ## Contest operations (opaque payloads) -/

/-- `cache_key = f"{batch}_{title}"` (line 462). -/
def leaderboardCacheKey (batch title : String) : String := batch ++ "_" ++ title

/-- `cache_key = f"{batch}_all"` (line 512). -/
def allContestsCacheKey (batch : String) : String := batch ++ "_all"

/-- `self._get_from_cache("contests")` coerced to the key map it is used as. -/
def cachedContestsMap (doc : CacheDoc) (now : Time) : List (String × Nat) :=
  match getFromCache doc now "contests" with
  | some (CacheVal.cmap m) => m
  | _ => []

/-- `get_contest_leaderboard` (lines 458-506); the upstream call either
yields an opaque payload or raises (which propagates, there is no retry). -/
def getContestLeaderboard (doc : CacheDoc) (now : Time) (batch title : String)
    (upstream : Except String Nat) : Except String (Nat × CacheDoc) :=
  let cached := cachedContestsMap doc now
  let cacheKey := leaderboardCacheKey batch title
  if !cached.isEmpty && dictHas cached cacheKey then
    Except.ok ((dictGet cached cacheKey).getD 0, doc)
  else
    match upstream with
    | Except.error e => Except.error e
    | Except.ok result =>
        let m := cachedContestsMap doc now
        Except.ok (result, updateCache doc now "contests" (CacheVal.cmap (dictSet m cacheKey result)))

/-- `get_all_contests` (lines 508-529). -/
def getAllContests (doc : CacheDoc) (now : Time) (batch : String)
    (upstream : Except String Nat) : Except String (Nat × CacheDoc) :=
  let cached := cachedContestsMap doc now
  let cacheKey := allContestsCacheKey batch
  if !cached.isEmpty && dictHas cached cacheKey then
    Except.ok ((dictGet cached cacheKey).getD 0, doc)
  else
    match upstream with
    | Except.error e => Except.error e
    | Except.ok result =>
        let m := cachedContestsMap doc now
        Except.ok (result, updateCache doc now "contests" (CacheVal.cmap (dictSet m cacheKey result)))

/-! ## Concrete sample data used by closed theorems and witnesses -/

/-- A record satisfying all nine quality rules. -/
def okStudent : StudentRecord :=
  ⟨some "1", some "Alice", some "alice", some "S1", some "R1",
   some 1500, some 9, some 3, some 3, some 3, some 10⟩

/-- A record violating only the rating range (rating 5000). -/
def badRatingStudent : StudentRecord :=
  ⟨some "2", some "Bob", some "bob", some "S1", some "R2",
   some 5000, some 9, some 3, some 3, some 3, some 10⟩

/-- A record violating only the total/sum consistency (10 vs 3+3+3). -/
def mismatchStudent : StudentRecord :=
  ⟨some "3", some "Carl", some "carl", some "S1", some "R3",
   some 1500, some 10, some 3, some 3, some 3, some 10⟩

def c1Doc : CacheDoc := ⟨some 0, [("students", CacheVal.raw 5)]⟩

def c8Doc : CacheDoc :=
  ⟨some 5, [("students", CacheVal.smap [("a", ⟨some []⟩), ("b", ⟨some [okStudent]⟩)]),
            ("contests", CacheVal.cmap [("b_all", 9)])]⟩

def c8Map : List (String × RecordSet) := [("a", ⟨some []⟩), ("b", ⟨some [okStudent]⟩)]

def c10Doc0 : CacheDoc := ⟨none, []⟩

def c10DocLB : CacheDoc := ⟨some 0, [("contests", CacheVal.cmap [("b1_all", 42)])]⟩

def c10DocAC : CacheDoc := ⟨some 0, [("contests", CacheVal.cmap [("b1_all", 7)])]⟩

def c2Doc : CacheDoc := ⟨some 0, [("students", CacheVal.smap [("b2", ⟨some []⟩)])]⟩

def c2Fresh : RecordSet := ⟨some [okStudent]⟩

def c2Up : Nat → UpOutcome := fun _ => UpOutcome.ok c2Fresh

def c2DocAfter : CacheDoc := ⟨some 100, [("students", CacheVal.smap [("b2", c2Fresh)])]⟩

def c6CexDoc : CacheDoc := ⟨some 0, [("students", CacheVal.smap [("b2", ⟨some []⟩)])]⟩

def c7CexDoc : CacheDoc := ⟨some 0, [("students", CacheVal.smap [("x", ⟨some []⟩)])]⟩

def c4Doc : CacheDoc :=
  ⟨some 0, [("students", CacheVal.smap
      [("good", ⟨some [okStudent]⟩), ("bad", ⟨some [badRatingStudent]⟩)])]⟩

def c4Map : List (String × RecordSet) :=
  [("good", ⟨some [okStudent]⟩), ("bad", ⟨some [badRatingStudent]⟩)]

def c9WDoc : CacheDoc :=
  ⟨some 0, [("students", CacheVal.smap [("old", ⟨some [okStudent]⟩)]),
            ("batches", CacheVal.raw 7)]⟩

def c9WR : RecordSet := ⟨some [okStudent]⟩

def c9WUp : Nat → UpOutcome := fun _ => UpOutcome.ok c9WR

def c3WDoc : CacheDoc := ⟨none, []⟩

def c3WR : RecordSet := ⟨some [okStudent, mismatchStudent]⟩

def c3WUp : Nat → UpOutcome :=
  fun i => if i < 2 then UpOutcome.ok ⟨some []⟩ else UpOutcome.ok c3WR

def c6WDoc : CacheDoc := ⟨some 0, [("students", CacheVal.smap [("b2", ⟨some []⟩)])]⟩

def c6WUp : Nat → UpOutcome := fun _ => UpOutcome.err "connection refused"

/-! ## Association-list lemmas -/

theorem dictGet_dictSet {α : Type} (d : List (String × α)) (k k2 : String) (v : α) :
    dictGet (dictSet d k v) k2 = if k = k2 then some v else dictGet d k2 := by
  induction d with
  | nil =>
      simp only [dictSet, dictGet]
  | cons p rest ih =>
      obtain ⟨k3, v3⟩ := p
      simp only [dictSet]
      by_cases h3 : k3 = k
      · rw [if_pos h3]
        subst h3
        simp only [dictGet]
        by_cases h4 : k3 = k2
        · simp only [if_pos h4]
        · simp only [if_neg h4]
      · rw [if_neg h3]
        simp only [dictGet, ih]
        by_cases h4 : k3 = k2
        · subst h4
          have hk : k ≠ k3 := fun hh => h3 hh.symm
          simp [hk]
        · simp only [if_neg h4]

theorem dictGet_dictDel {α : Type} (d : List (String × α)) (k k2 : String) :
    dictGet (dictDel d k) k2 = if k = k2 then none else dictGet d k2 := by
  induction d with
  | nil =>
      simp only [dictDel, dictGet]
      split <;> rfl
  | cons p rest ih =>
      obtain ⟨k3, v3⟩ := p
      simp only [dictDel]
      by_cases h3 : k3 = k
      · rw [if_pos h3]
        subst h3
        rw [ih]
        by_cases h4 : k3 = k2
        · simp only [if_pos h4]
        · simp [dictGet, h4]
      · rw [if_neg h3]
        simp only [dictGet, ih]
        by_cases h4 : k3 = k2
        · subst h4
          have hk : k ≠ k3 := fun hh => h3 hh.symm
          simp [hk]
        · simp only [if_neg h4]

theorem dictGet_dictSet_self {α : Type} (d : List (String × α)) (k : String) (v : α) :
    dictGet (dictSet d k v) k = some v := by
  rw [dictGet_dictSet, if_pos rfl]

theorem dictGet_dictSet_ne {α : Type} (d : List (String × α)) (k k2 : String) (v : α)
    (h : k2 ≠ k) : dictGet (dictSet d k v) k2 = dictGet d k2 := by
  rw [dictGet_dictSet, if_neg (fun hh => h hh.symm)]

theorem dictGet_dictDel_self {α : Type} (d : List (String × α)) (k : String) :
    dictGet (dictDel d k) k = none := by
  rw [dictGet_dictDel, if_pos rfl]

theorem dictGet_dictDel_ne {α : Type} (d : List (String × α)) (k k2 : String)
    (h : k2 ≠ k) : dictGet (dictDel d k) k2 = dictGet d k2 := by
  rw [dictGet_dictDel, if_neg (fun hh => h hh.symm)]

theorem dictGet_foldlDel_none {α : Type} (l : List String) (m : List (String × α)) (b : String)
    (h : dictGet m b = none) : dictGet (l.foldl dictDel m) b = none := by
  induction l generalizing m with
  | nil => simpa using h
  | cons a rest ih =>
      simp only [List.foldl_cons]
      apply ih
      rw [dictGet_dictDel]
      split
      · rfl
      · exact h

theorem dictGet_foldlDel_of_mem {α : Type} (l : List String) (m : List (String × α)) (b : String)
    (h : b ∈ l) : dictGet (l.foldl dictDel m) b = none := by
  induction l generalizing m with
  | nil => cases h
  | cons a rest ih =>
      simp only [List.foldl_cons]
      rcases List.mem_cons.mp h with hba | hmem
      · subst hba
        exact dictGet_foldlDel_none rest (dictDel m b) b (dictGet_dictDel_self m b)
      · exact ih (dictDel m a) hmem

theorem dictGet_foldlDel_of_notMem {α : Type} (l : List String) (m : List (String × α)) (b : String)
    (h : b ∉ l) : dictGet (l.foldl dictDel m) b = dictGet m b := by
  induction l generalizing m with
  | nil => rfl
  | cons a rest ih =>
      simp only [List.foldl_cons]
      have hba : b ≠ a := fun hh => h (hh ▸ List.mem_cons_self a rest)
      rw [ih (dictDel m a) (fun hh => h (List.mem_cons_of_mem a hh)),
          dictGet_dictDel_ne m a b hba]

theorem isEmpty_eq_false_of_dictHas {α : Type} (d : List (String × α)) (k : String)
    (h : dictHas d k = true) : d.isEmpty = false := by
  cases d with
  | nil => simp [dictHas, dictGet] at h
  | cons p rest => rfl

/-! ## Lemmas about the orchestrator -/

/-- The stale-entry delete guard of lines 320-321 never holds: it looks up
`"data"` as a batch name and then asks whether the string `batch` equals one
of the student-record dicts of a list, which Python answers False for every
element. -/
theorem staleDeleteGuard_eq_false (cached : List (String × RecordSet)) (batch : String) :
    staleDeleteGuard cached batch = false := by
  unfold staleDeleteGuard
  cases dictGet cached "data" with
  | none => rfl
  | some rs => simp [pyEqRecordStr]

/-- Every exit of the retry loop is a `return` of a record-set value: the
whole loop body sits inside `try/except Exception`. -/
theorem fetchAttempts_ok (doc : CacheDoc) (now : Time) (batch : String)
    (orig : List (String × RecordSet)) (up : Nat → UpOutcome) :
    ∀ fuel attempt calls saves, ∃ out,
      fetchAttempts doc now batch orig up fuel attempt calls saves = Except.ok out := by
  intro fuel
  induction fuel with
  | zero => intro attempt calls saves; exact ⟨_, rfl⟩
  | succ n ih =>
      intro attempt calls saves
      cases h : up attempt with
      | ok r =>
          simp only [fetchAttempts, h]
          split
          · exact ⟨_, rfl⟩
          · split
            · split
              · exact ih _ _ _
              · exact ⟨_, rfl⟩
            · exact ⟨_, rfl⟩
      | err msg =>
          simp only [fetchAttempts, h]
          split
          · exact ih _ _ _
          · split
            · exact ⟨_, rfl⟩
            · exact ⟨_, rfl⟩

/-! ## C1 -/

/-- Claim C1: the expiry clock is global to the whole document.  Every
`_update_cache` (under any category) sets the single `last_fetch_time` to
now; `_get_from_cache` returns a stored entry exactly while
`now - last_fetch_time < 24h` and misses otherwise even though the entry is
physically present; a fresh put under a sibling category at `t1` makes a get
of an entry written before `t1 - TTL` return that stale value as valid; and
once the TTL passes with no put at all, every get on every category is a
miss. -/
theorem c1_global_ttl_clock (doc : CacheDoc) (now t0 t1 t2 : Time)
    (cat cat2 : String) (v v2 : CacheVal) :
    ((updateCache doc now cat v).lastFetchTime = some now)
    ∧ (∀ t w, doc.lastFetchTime = some t → dictGet doc.data cat = some w →
        getFromCache doc now cat = (if now - t < cacheDuration then some w else none))
    ∧ (∀ t, doc.lastFetchTime = some t → cacheDuration ≤ now - t →
        getFromCache doc now cat = none)
    ∧ (cat ≠ cat2 → cacheDuration ≤ t1 - t0 → t1 ≤ t2 → t2 - t1 < cacheDuration →
        getFromCache (updateCache (updateCache doc t0 cat v) t1 cat2 v2) t2 cat = some v
        ∧ cacheDuration ≤ t2 - t0) := by
  refine ⟨rfl, ?_, ?_, ?_⟩
  · intro t w ht hw
    simp only [getFromCache, isCacheValid, ht]
    by_cases hlt : now - t < cacheDuration
    · simp [hlt, hw]
    · simp [hlt]
  · intro t ht hge
    have hnlt : ¬ (now - t < cacheDuration) := by linarith
    simp [getFromCache, isCacheValid, ht, hnlt]
  · intro hne h10 h12 h21
    constructor
    · have hval : isCacheValid (updateCache (updateCache doc t0 cat v) t1 cat2 v2) t2 = true := by
        simp [isCacheValid, updateCache, h21]
      simp only [updateCache] at hval
      simp only [getFromCache, updateCache, hval, if_true]
      rw [dictGet_dictSet_ne _ _ _ _ hne, dictGet_dictSet_self]
    · linarith

theorem c1_global_ttl_clock_witness :
    ("students" ≠ "batches")
    ∧ ((86400 : Int) ≤ 86400 ∧ (86400 : Int) ≤ 86401 ∧ (86401 : Int) - 86400 < cacheDuration)
    ∧ getFromCache (updateCache (updateCache c1Doc 0 "students" (CacheVal.raw 5))
        86400 "batches" (CacheVal.raw 6)) 86401 "students" = some (CacheVal.raw 5) :=
  ⟨by decide, ⟨by decide, by decide, by decide⟩,
   ((c1_global_ttl_clock c1Doc 0 0 86400 86401 "students" "batches"
      (CacheVal.raw 5) (CacheVal.raw 6)).2.2.2
      (by decide) (by decide) (by decide) (by decide)).1⟩

/-! ## C8 -/

/-- Claim C8: `clear_cache_for_batch b` removes only `data["students"][b]`
when present and saves; `last_fetch_time`, the other batches and the other
categories are untouched; when `b` is absent (or there is no students map)
the document is not written at all. -/
theorem c8_targeted_invalidation (doc : CacheDoc) (batch : String) :
    (∀ m, dictGet doc.data "students" = some (CacheVal.smap m) → dictHas m batch = true →
       clearCacheForBatch doc batch =
         ({ doc with data := dictSet doc.data "students" (CacheVal.smap (dictDel m batch)) }, true)
       ∧ (clearCacheForBatch doc batch).1.lastFetchTime = doc.lastFetchTime
       ∧ dictGet (dictDel m batch) batch = none
       ∧ (∀ b, b ≠ batch → dictGet (dictDel m batch) b = dictGet m b)
       ∧ (∀ cat, cat ≠ "students" →
            dictGet (dictSet doc.data "students" (CacheVal.smap (dictDel m batch))) cat =
              dictGet doc.data cat))
    ∧ ((match dictGet doc.data "students" with
        | some (CacheVal.smap m) => dictHas m batch
        | _ => false) = false →
       clearCacheForBatch doc batch = (doc, false)) := by
  constructor
  · intro m hm hb
    have heq : clearCacheForBatch doc batch =
        ({ doc with data := dictSet doc.data "students" (CacheVal.smap (dictDel m batch)) }, true) := by
      simp [clearCacheForBatch, hm, hb]
    refine ⟨heq, by rw [heq], dictGet_dictDel_self m batch,
      fun b hb2 => dictGet_dictDel_ne m batch b hb2,
      fun cat hc => dictGet_dictSet_ne doc.data "students" cat _ hc⟩
  · intro h
    unfold clearCacheForBatch
    cases hg : dictGet doc.data "students" with
    | none => rfl
    | some cv =>
        cases cv with
        | smap m =>
            rw [hg] at h
            simp at h
            simp [h]
        | cmap m => rfl
        | raw v => rfl

theorem c8_targeted_invalidation_witness :
    dictGet c8Doc.data "students" = some (CacheVal.smap c8Map)
    ∧ dictHas c8Map "a" = true
    ∧ clearCacheForBatch c8Doc "a" =
        ({ c8Doc with data := dictSet c8Doc.data "students" (CacheVal.smap (dictDel c8Map "a")) }, true)
    ∧ dictGet (dictDel c8Map "a") "b" = dictGet c8Map "b"
    ∧ dictGet (dictSet c8Doc.data "students" (CacheVal.smap (dictDel c8Map "a"))) "contests" =
        dictGet c8Doc.data "contests"
    ∧ clearCacheForBatch ⟨some 5, []⟩ "a" = (⟨some 5, []⟩, false) :=
  ⟨by decide, by decide,
   ((c8_targeted_invalidation c8Doc "a").1 c8Map (by decide) (by decide)).1,
   ((c8_targeted_invalidation c8Doc "a").1 c8Map (by decide) (by decide)).2.2.2.1 "b" (by decide),
   ((c8_targeted_invalidation c8Doc "a").1 c8Map (by decide) (by decide)).2.2.2.2 "contests" (by decide),
   (c8_targeted_invalidation ⟨some 5, []⟩ "a").2 (by decide)⟩

/-! ## C10 -/

/-- Claim C10: the contests cache-key encoding is not injective —
`get_all_contests b` uses `f"{b}_all"` and `get_contest_leaderboard b t` uses
`f"{b}_{t}"`, so a contest titled `"all"` (or underscore-splitting pairs)
collides, and a value cached by one operation is returned as the other's
result (without consulting the upstream at all). -/
theorem c10_contest_key_collision :
    (leaderboardCacheKey "b1" "all" = allContestsCacheKey "b1")
    ∧ (leaderboardCacheKey "x_y" "z" = leaderboardCacheKey "x" "y_z")
    ∧ getContestLeaderboard c10Doc0 0 "b1" "all" (Except.ok 42) = Except.ok (42, c10DocLB)
    ∧ (∀ up2, getAllContests c10DocLB 0 "b1" up2 = Except.ok (42, c10DocLB))
    ∧ getAllContests c10Doc0 0 "b1" (Except.ok 7) = Except.ok (7, c10DocAC)
    ∧ (∀ up2, getContestLeaderboard c10DocAC 0 "b1" "all" up2 = Except.ok (7, c10DocAC)) := by
  refine ⟨by decide, by decide, rfl, fun up2 => rfl, rfl, fun up2 => rfl⟩

/-! ## C2 -/

/-- Claim C2 (the code contradicts it): with a valid cache holding
`{"students": []}` for `b2` (not known-empty), `get_students_by_batch "b2"`
does make exactly one upstream fetch, but it never deletes the stale entry
from the persisted document: the delete at lines 320-323 guards on
`"data" in cached_data` where `cached_data` is already the per-category batch
map, so the only `_save_cache` of the whole call is the final put, whose
document still contains the `b2` key (now overwritten).  No saved document
ever lacks the entry. -/
theorem c2_stale_empty_entry_never_deleted :
    getStudentsByBatch c2Doc 100 "b2" c2Up =
      Except.ok ⟨c2Fresh, c2DocAfter, 1, [c2DocAfter]⟩
    ∧ ([c2DocAfter].all fun d =>
         match dictGet d.data "students" with
         | some (CacheVal.smap m) => dictHas m "b2"
         | _ => false) = true
    ∧ staleDeleteGuard [("b2", (⟨some []⟩ : RecordSet))] "b2" = false := by
  refine ⟨rfl, by decide, by decide⟩

/-! ## C6 counterexample -/

/-- Claim C6 as stated is false: with a pre-existing (stale-empty) cached
value `{"students": []}` for `b2` and every upstream attempt returning the
empty reply `{}` (zero records, no exception), all retries fail, yet the call
returns the last empty upstream result `{}` — not the pre-existing cached
value that fallback (i) of the claim promises first. -/
theorem c6_fallback_order_cex :
    dictGet (cachedStudentsMap c6CexDoc 100) "b2" = some ⟨some []⟩
    ∧ getStudentsByBatch c6CexDoc 100 "b2" (fun _ => UpOutcome.ok ⟨none⟩) =
        Except.ok ⟨⟨none⟩, c6CexDoc, 3, []⟩
    ∧ (⟨none⟩ : RecordSet) ≠ ⟨some []⟩ := by
  refine ⟨by decide, rfl, by decide⟩

/-! ## C7 counterexample -/

/-- Claim C7 as stated is false: on an expired document (written at 0, tick
at 200000 > TTL) holding a zero-student non-known-empty batch `x`, the
monitor tick does NOT skip the audit — `get_cache_health_status` never
consults `_is_cache_valid`, so the tick still classifies `x` as problematic
and reports `needs_attention`; only the repair step backs off, leaving the
document unchanged. -/
theorem c7_invalid_doc_audit_cex :
    isCacheValid c7CexDoc 200000 = false
    ∧ (getCacheHealthStatus c7CexDoc).problematicBatches = ["x"]
    ∧ (getCacheHealthStatus c7CexDoc).overallHealth = "needs_attention"
    ∧ (checkCacheHealth c7CexDoc 200000).2 = c7CexDoc := by
  refine ⟨by decide, by decide, by decide, by decide⟩

/-! ## C5 -/

/-- Claim C5: the validator evaluates its nine rules independently per record
and concatenates the findings; a record passing everything except the
total/sum consistency yields exactly the one mismatch issue; a record passing
all rules yields no issue; and the record-set validator reports nothing
exactly when every record yields no issue. -/
theorem c5_validator_rules (s : StudentRecord)
    (hu : pyTruthyStr s.leetcodeUsername = true)
    (hn : pyTruthyStr s.name = true)
    (hsec : pyTruthyStr s.sectionName = true)
    (hroll : pyTruthyStr s.rollNumber = true)
    (hrating : ∀ r, s.rating = some r → 0 ≤ r ∧ r ≤ 4000)
    (he : 0 ≤ s.easySolved.getD 0)
    (hm : 0 ≤ s.mediumSolved.getD 0)
    (hh : 0 ≤ s.hardSolved.getD 0)
    (ht0 : 0 ≤ s.totalSolved.getD 0)
    (ht : s.totalSolved.getD 0 ≤ 3000)
    (ha0 : 0 ≤ s.attendedContestsCount.getD 0)
    (ha1 : s.attendedContestsCount.getD 0 ≤ 1000) :
    (s.totalSolved.getD 0 ≠ s.easySolved.getD 0 + s.mediumSolved.getD 0 + s.hardSolved.getD 0 →
       studentIssues s = [countMismatchMessage s])
    ∧ (s.totalSolved.getD 0 = s.easySolved.getD 0 + s.mediumSolved.getD 0 + s.hardSolved.getD 0 →
       studentIssues s = [])
    ∧ (∀ l : List StudentRecord,
         (validateStudentDataQuality l = none ↔ ∀ x ∈ l, studentIssues x = [])) := by
  have hrx : (match s.rating with
      | none => []
      | some r => if r < 0 ∨ r > 4000 then [suspiciousRatingMessage s r] else []) = [] := by
    cases hr : s.rating with
    | none => rfl
    | some r =>
        have hb := hrating r hr
        have hcond : ¬ (r < 0 ∨ r > 4000) := by
          rintro (hlt | hgt) <;> linarith [hb.1, hb.2]
        simp [hcond]
  have hneg : ([s.easySolved.getD 0, s.mediumSolved.getD 0, s.hardSolved.getD 0,
      s.totalSolved.getD 0].any (fun c => decide (c < 0))) = false := by
    simp only [List.any_cons, List.any_nil, Bool.or_eq_false_iff, decide_eq_false_iff_not, not_lt]
    refine ⟨he, hm, hh, ht0, trivial⟩
  have hta : ¬ (s.totalSolved.getD 0 > 3000) := by linarith
  have hca : ¬ (s.attendedContestsCount.getD 0 < 0 ∨ s.attendedContestsCount.getD 0 > 1000) := by
    rintro (hlt | hgt) <;> linarith
  refine ⟨?_, ?_, ?_⟩
  · intro hmis
    simp [studentIssues, hu, hn, hsec, hroll, hrx, hneg, hta, hca, hmis]
  · intro hsum
    simp [studentIssues, hu, hn, hsec, hroll, hrx, hneg, hta, hca, hsum]
    refine ⟨by linarith, by linarith, by linarith, by linarith, by linarith⟩
  · intro l
    simp only [validateStudentDataQuality]
    by_cases hemp : ((l.map studentIssues).flatten).isEmpty
    · simp only [hemp, if_true]
      rw [List.isEmpty_iff, List.flatten_eq_nil_iff] at hemp
      simp only [true_iff]
      intro x hx
      exact hemp _ (List.mem_map_of_mem _ hx)
    · simp only [hemp, if_false]
      rw [List.isEmpty_iff, List.flatten_eq_nil_iff] at hemp
      constructor
      · intro hcontra
        exact absurd hcontra (by simp)
      · intro hall
        exact absurd (fun L hL => by
          obtain ⟨x, hx, rfl⟩ := List.mem_map.mp hL
          exact hall x hx) hemp

theorem c5_validator_rules_witness :
    studentIssues mismatchStudent = [countMismatchMessage mismatchStudent]
    ∧ studentIssues okStudent = []
    ∧ validateStudentDataQuality [okStudent] = none :=
  ⟨(c5_validator_rules mismatchStudent (by decide) (by decide) (by decide) (by decide)
      (by intro r hr; cases hr; exact ⟨by decide, by decide⟩)
      (by decide) (by decide) (by decide) (by decide) (by decide) (by decide) (by decide)).1
      (by decide),
   (c5_validator_rules okStudent (by decide) (by decide) (by decide) (by decide)
      (by intro r hr; cases hr; exact ⟨by decide, by decide⟩)
      (by decide) (by decide) (by decide) (by decide) (by decide) (by decide) (by decide)).2.1
      (by decide),
   ((c5_validator_rules okStudent (by decide) (by decide) (by decide) (by decide)
      (by intro r hr; cases hr; exact ⟨by decide, by decide⟩)
      (by decide) (by decide) (by decide) (by decide) (by decide) (by decide) (by decide)).2.2
      [okStudent]).mpr (by decide)⟩

/-! ## C4 -/

/-- The classification loops of `get_cache_health_status` and
`auto_validate_cache` mark exactly the same batches problematic, in the same
order. -/
theorem tallyBatches_problematic_eq (m : List (String × RecordSet)) :
    (tallyBatches m).problematic = autoValidProblematic m := by
  induction m with
  | nil => rfl
  | cons p rest ih =>
      obtain ⟨batch, data⟩ := p
      simp only [tallyBatches, autoValidProblematic]
      by_cases hc : (data.students.getD []).length > 0
      · have hne : ¬ data.students.getD [] = [] := by
          intro hnil
          rw [hnil] at hc
          simp at hc
        by_cases hq : pyTruthyStr (validateStudentDataQuality (data.students.getD [])) = true
        · simp [hc, hne, hq, ih]
        · simp [hc, hne, hq, ih]
      · have hnil : data.students.getD [] = [] := by
          cases hxx : data.students.getD [] with
          | nil => rfl
          | cons a l => rw [hxx] at hc; simp at hc
        by_cases hk : batch ∈ knownEmptyBatches
        · simp [hc, hnil, hk, ih]
        · simp [hc, hnil, hk, ih]

/-- `overall_health` is `needs_attention` exactly when the problematic list
is non-empty. -/
theorem overallHealth_needs_attention_iff (doc : CacheDoc) :
    ((getCacheHealthStatus doc).overallHealth = "needs_attention") ↔
      (getCacheHealthStatus doc).problematicBatches ≠ [] := by
  simp only [getCacheHealthStatus]
  by_cases hp : (match dictGet doc.data "students" with
      | some (CacheVal.smap m) => tallyBatches m
      | _ => (⟨0, 0, [], [], []⟩ : BatchTallies)).problematic.isEmpty
  · rw [List.isEmpty_iff] at hp
    simp only [hp]
    constructor
    · intro hcontra
      by_cases hz : (match dictGet doc.data "students" with
          | some (CacheVal.smap m) => tallyBatches m
          | _ => (⟨0, 0, [], [], []⟩ : BatchTallies)).healthy = 0 <;>
        simp_all
    · intro hcontra
      simp at hcontra
  · have hp2 : ¬ (match dictGet doc.data "students" with
        | some (CacheVal.smap m) => tallyBatches m
        | _ => (⟨0, 0, [], [], []⟩ : BatchTallies)).problematic = [] := by
      rw [← List.isEmpty_iff]
      simp [hp]
    simp [hp, hp2]

/-- Claim C4: one monitor tick on a valid document removes exactly the
problematic batches (zero students and not known-empty, or any data-quality
issue) from the students map and leaves every other batch's entry unchanged,
and the pre-tick snapshot says `needs_attention` iff a problematic batch
exists. -/
theorem c4_monitor_repair (doc : CacheDoc) (now : Time) (m : List (String × RecordSet))
    (hvalid : isCacheValid doc now = true)
    (hm : dictGet doc.data "students" = some (CacheVal.smap m)) :
    ((getCacheHealthStatus doc).problematicBatches = autoValidProblematic m)
    ∧ ((getCacheHealthStatus doc).overallHealth = "needs_attention" ↔
        autoValidProblematic m ≠ [])
    ∧ (dictGet ((checkCacheHealth doc now).2).data "students" =
        some (CacheVal.smap ((autoValidProblematic m).foldl dictDel m)))
    ∧ (∀ b, b ∈ autoValidProblematic m →
        dictGet ((autoValidProblematic m).foldl dictDel m) b = none)
    ∧ (∀ b rs, dictGet m b = some rs → b ∉ autoValidProblematic m →
        dictGet ((autoValidProblematic m).foldl dictDel m) b = some rs) := by
  have hprob : (getCacheHealthStatus doc).problematicBatches = autoValidProblematic m := by
    simp only [getCacheHealthStatus, hm]
    exact tallyBatches_problematic_eq m
  have hiff := overallHealth_needs_attention_iff doc
  rw [hprob] at hiff
  refine ⟨hprob, hiff, ?_, ?_, ?_⟩
  · by_cases hne : autoValidProblematic m = []
    · have hnn : ¬ ((getCacheHealthStatus doc).overallHealth = "needs_attention") := by
        rw [hiff]
        simp [hne]
      simp only [checkCacheHealth]
      rw [if_neg hnn]
      simp only [hne, List.foldl_nil]
      exact hm
    · have hyes : (getCacheHealthStatus doc).overallHealth = "needs_attention" := hiff.mpr hne
      simp only [checkCacheHealth]
      rw [if_pos hyes]
      simp only [autoValidateCache, hvalid, Bool.not_true, hm]
      rw [if_neg (by simp)]
      have hpe : ¬ (autoValidProblematic m).isEmpty = true := by
        rw [List.isEmpty_iff]
        exact hne
      rw [if_neg hpe]
      exact dictGet_dictSet_self doc.data "students" _
  · intro b hb
    exact dictGet_foldlDel_of_mem _ m b hb
  · intro b rs hget hnb
    rw [dictGet_foldlDel_of_notMem _ m b hnb]
    exact hget

theorem c4_monitor_repair_witness :
    isCacheValid c4Doc 50 = true
    ∧ (getCacheHealthStatus c4Doc).overallHealth = "needs_attention"
    ∧ dictGet ((checkCacheHealth c4Doc 50).2).data "students" =
        some (CacheVal.smap ((autoValidProblematic c4Map).foldl dictDel c4Map))
    ∧ dictGet ((autoValidProblematic c4Map).foldl dictDel c4Map) "bad" = none
    ∧ dictGet ((autoValidProblematic c4Map).foldl dictDel c4Map) "good" =
        some ⟨some [okStudent]⟩ :=
  ⟨by decide,
   (c4_monitor_repair c4Doc 50 c4Map (by decide) (by decide)).2.1.mpr (by decide),
   (c4_monitor_repair c4Doc 50 c4Map (by decide) (by decide)).2.2.1,
   (c4_monitor_repair c4Doc 50 c4Map (by decide) (by decide)).2.2.2.1 "bad" (by decide),
   (c4_monitor_repair c4Doc 50 c4Map (by decide) (by decide)).2.2.2.2 "good" ⟨some [okStudent]⟩
     (by decide) (by decide)⟩

/-! ## C7 (amended) -/

/-- Claim C7, amended: when the document is invalid/expired a monitor tick
leaves the cache document unchanged (the repair step returns early on an
invalid document), but it does NOT skip the audit: the snapshot it acts on is
exactly `get_cache_health_status` of the raw document, whose batch
classification ignores `last_fetch_time` entirely. -/
theorem c7_invalid_doc_tick (doc : CacheDoc) (now : Time)
    (hinv : isCacheValid doc now = false) :
    ((checkCacheHealth doc now).2 = doc)
    ∧ ((checkCacheHealth doc now).1 = getCacheHealthStatus doc)
    ∧ (∀ t, (getCacheHealthStatus { doc with lastFetchTime := t }).problematicBatches =
        (getCacheHealthStatus doc).problematicBatches) := by
  refine ⟨?_, ?_, ?_⟩
  · simp only [checkCacheHealth, autoValidateCache, hinv, Bool.not_false, if_true]
    split <;> rfl
  · simp only [checkCacheHealth]
    split <;> rfl
  · intro t
    simp only [getCacheHealthStatus]

theorem c7_invalid_doc_tick_witness :
    isCacheValid c7CexDoc 200000 = false
    ∧ (checkCacheHealth c7CexDoc 200000).2 = c7CexDoc
    ∧ (checkCacheHealth c7CexDoc 200000).1 = getCacheHealthStatus c7CexDoc
    ∧ (getCacheHealthStatus { c7CexDoc with lastFetchTime := some 199999 }).problematicBatches =
        (getCacheHealthStatus c7CexDoc).problematicBatches :=
  ⟨by decide,
   (c7_invalid_doc_tick c7CexDoc 200000 (by decide)).1,
   (c7_invalid_doc_tick c7CexDoc 200000 (by decide)).2.1,
   (c7_invalid_doc_tick c7CexDoc 200000 (by decide)).2.2 (some 199999)⟩

/-! ## C9 -/

/-- Claim C9 (implicit): when the document is expired at fetch time and the
upstream returns fresh non-empty data on the first attempt, the write-back
replaces the whole students category by the singleton map `{batch: result}`
(the expired cache reads back as empty before the merge), deleting every
other batch's entry, while entries under other categories survive untouched
and become readable again under the new global `last_fetch_time`. -/
theorem c9_expired_writeback (doc : CacheDoc) (now now2 : Time) (batch : String)
    (upstream : Nat → UpOutcome) (freshR : RecordSet)
    (hinv : isCacheValid doc now = false)
    (h0 : upstream 0 = UpOutcome.ok freshR)
    (hpos : studentCount freshR > 0) :
    getStudentsByBatch doc now batch upstream =
      Except.ok ⟨freshR,
        ⟨some now, dictSet doc.data "students" (CacheVal.smap [(batch, freshR)])⟩, 1,
        [⟨some now, dictSet doc.data "students" (CacheVal.smap [(batch, freshR)])⟩]⟩
    ∧ (∀ b, b ≠ batch → dictGet [(batch, freshR)] b = none)
    ∧ (∀ cat, cat ≠ "students" →
        dictGet (dictSet doc.data "students" (CacheVal.smap [(batch, freshR)])) cat =
          dictGet doc.data cat)
    ∧ (now2 - now < cacheDuration → ∀ cat,
        getFromCache ⟨some now, dictSet doc.data "students" (CacheVal.smap [(batch, freshR)])⟩
            now2 cat =
          dictGet (dictSet doc.data "students" (CacheVal.smap [(batch, freshR)])) cat) := by
  have hmap : cachedStudentsMap doc now = [] := by
    simp [cachedStudentsMap, getFromCache, hinv]
  refine ⟨?_, ?_, ?_, ?_⟩
  · simp [getStudentsByBatch, hmap, dictHas, dictGet, fetchAttempts, h0, hpos,
      updateCache, dictSet]
  · intro b hb
    simp [dictGet, Ne.symm hb]
  · intro cat hc
    exact dictGet_dictSet_ne doc.data "students" cat _ hc
  · intro hlt cat
    simp [getFromCache, isCacheValid, hlt]

theorem c9_expired_writeback_witness :
    isCacheValid c9WDoc 200000 = false
    ∧ getStudentsByBatch c9WDoc 200000 "new" c9WUp =
        Except.ok ⟨c9WR,
          ⟨some 200000, dictSet c9WDoc.data "students" (CacheVal.smap [("new", c9WR)])⟩, 1,
          [⟨some 200000, dictSet c9WDoc.data "students" (CacheVal.smap [("new", c9WR)])⟩]⟩
    ∧ dictGet [("new", c9WR)] "old" = none
    ∧ dictGet (dictSet c9WDoc.data "students" (CacheVal.smap [("new", c9WR)])) "batches" =
        dictGet c9WDoc.data "batches"
    ∧ getFromCache ⟨some 200000, dictSet c9WDoc.data "students" (CacheVal.smap [("new", c9WR)])⟩
          200005 "batches" =
        dictGet (dictSet c9WDoc.data "students" (CacheVal.smap [("new", c9WR)])) "batches" :=
  ⟨by decide,
   (c9_expired_writeback c9WDoc 200000 200005 "new" c9WUp c9WR (by decide) rfl (by decide)).1,
   (c9_expired_writeback c9WDoc 200000 200005 "new" c9WUp c9WR (by decide) rfl (by decide)).2.1
     "old" (by decide),
   (c9_expired_writeback c9WDoc 200000 200005 "new" c9WUp c9WR (by decide) rfl (by decide)).2.2.1
     "batches" (by decide),
   (c9_expired_writeback c9WDoc 200000 200005 "new" c9WUp c9WR (by decide) rfl (by decide)).2.2.2
     (by decide) "batches"⟩

/-! ## C3 -/

/-- Claim C3: on a cache miss for a non-known-empty batch, the orchestrator
makes up to 3 upstream attempts, and the first attempt whose result has a
positive count is written back to the cache and returned immediately; with
empty results on every attempt before the winning one at index `k`, the call
makes exactly `k + 1` upstream calls. -/
theorem c3_first_nonempty_wins (doc : CacheDoc) (now : Time) (batch : String)
    (upstream : Nat → UpOutcome) (k : Nat) (freshR : RecordSet)
    (hmiss : dictHas (cachedStudentsMap doc now) batch = false)
    (hknown : knownEmptyBatches.contains batch = false)
    (hk : k < 3)
    (hbefore : ∀ i, i < k → ∃ e, upstream i = UpOutcome.ok e ∧ studentCount e = 0)
    (hwin : upstream k = UpOutcome.ok freshR)
    (hpos : studentCount freshR > 0) :
    getStudentsByBatch doc now batch upstream =
      Except.ok ⟨freshR,
        updateCache doc now "students"
          (CacheVal.smap (dictSet (cachedStudentsMap doc now) batch freshR)),
        k + 1,
        [updateCache doc now "students"
          (CacheVal.smap (dictSet (cachedStudentsMap doc now) batch freshR))]⟩ := by
  have hloop : getStudentsByBatch doc now batch upstream =
      fetchAttempts doc now batch (cachedStudentsMap doc now) upstream 3 0 0 [] := by
    simp [getStudentsByBatch, hmiss]
  have hknm : batch ∉ knownEmptyBatches := by simpa using hknown
  rw [hloop]
  interval_cases k
  · simp [fetchAttempts, hwin, hpos]
  · obtain ⟨e0, h0, hc0⟩ := hbefore 0 (by decide)
    simp [fetchAttempts, h0, hc0, hknown, hknm, hwin, hpos]
  · obtain ⟨e0, h0, hc0⟩ := hbefore 0 (by decide)
    obtain ⟨e1, h1, hc1⟩ := hbefore 1 (by decide)
    simp [fetchAttempts, h0, hc0, h1, hc1, hknown, hknm, hwin, hpos]

theorem c3_first_nonempty_wins_witness :
    getStudentsByBatch c3WDoc 0 "b3" c3WUp =
      Except.ok ⟨c3WR,
        updateCache c3WDoc 0 "students"
          (CacheVal.smap (dictSet (cachedStudentsMap c3WDoc 0) "b3" c3WR)),
        3,
        [updateCache c3WDoc 0 "students"
          (CacheVal.smap (dictSet (cachedStudentsMap c3WDoc 0) "b3" c3WR))]⟩ :=
  c3_first_nonempty_wins c3WDoc 0 "b3" c3WUp 2 c3WR (by decide) (by decide) (by decide)
    (by
      intro i hi
      interval_cases i
      · exact ⟨⟨some []⟩, rfl, rfl⟩
      · exact ⟨⟨some []⟩, rfl, rfl⟩)
    rfl (by decide)

/-! ## C6 (amended) -/

/-- Claim C6, amended: `get_students_by_batch` always returns a record-set
value and never propagates an exception, for every sequence of upstream
outcomes.  When every attempt raises, it falls back to the pre-existing
cached value for the batch when one exists and otherwise to the canonical
`{"students": []}`, leaving the document unchanged.  But when the final
attempt returns an empty result without raising, that last empty upstream
result is returned as-is — it takes precedence over any pre-existing stale
cached value (the spec's fallback order (i)-before-(ii) holds only for the
exception path). -/
theorem c6_no_raise_and_fallback (doc : CacheDoc) (now : Time) (batch : String)
    (upstream : Nat → UpOutcome) :
    (∃ out, getStudentsByBatch doc now batch upstream = Except.ok out)
    ∧ ((∀ i, i < 3 → ∃ msg, upstream i = UpOutcome.err msg) →
        ∃ n, getStudentsByBatch doc now batch upstream =
          Except.ok ⟨(if dictHas (cachedStudentsMap doc now) batch = true
                      then (dictGet (cachedStudentsMap doc now) batch).getD emptyRecordSet
                      else emptyRecordSet), doc, n, []⟩)
    ∧ (knownEmptyBatches.contains batch = false →
        studentCount ((dictGet (cachedStudentsMap doc now) batch).getD emptyRecordSet) = 0 →
        (∀ i, i < 2 → (∃ msg, upstream i = UpOutcome.err msg) ∨
            (∃ e, upstream i = UpOutcome.ok e ∧ studentCount e = 0)) →
        ∀ elast, upstream 2 = UpOutcome.ok elast → studentCount elast = 0 →
          getStudentsByBatch doc now batch upstream = Except.ok ⟨elast, doc, 3, []⟩) := by
  have hsg := staleDeleteGuard_eq_false (cachedStudentsMap doc now) batch
  refine ⟨?_, ?_, ?_⟩
  · by_cases hhit : (!(cachedStudentsMap doc now).isEmpty &&
        dictHas (cachedStudentsMap doc now) batch) = true
    · by_cases hcnt : studentCount ((dictGet (cachedStudentsMap doc now) batch).getD
          emptyRecordSet) > 0
      · exact ⟨⟨(dictGet (cachedStudentsMap doc now) batch).getD emptyRecordSet, doc, 0, []⟩,
          by simp [getStudentsByBatch, hhit, hcnt]⟩
      · by_cases hkn : knownEmptyBatches.contains batch = true
        · have hknm : batch ∈ knownEmptyBatches := by simpa using hkn
          exact ⟨⟨(dictGet (cachedStudentsMap doc now) batch).getD emptyRecordSet, doc, 0, []⟩,
            by simp [getStudentsByBatch, hhit, hcnt, hknm]⟩
        · have hknm : batch ∉ knownEmptyBatches := by simpa using hkn
          obtain ⟨out, hout⟩ :=
            fetchAttempts_ok doc now batch (cachedStudentsMap doc now) upstream 3 0 0 []
          exact ⟨out, by simp [getStudentsByBatch, hhit, hcnt, hknm, hsg]; exact hout⟩
    · obtain ⟨out, hout⟩ :=
        fetchAttempts_ok doc now batch (cachedStudentsMap doc now) upstream 3 0 0 []
      exact ⟨out, by simp only [getStudentsByBatch, hhit, if_false]; exact hout⟩
  · intro hallerr
    obtain ⟨m0, h0⟩ := hallerr 0 (by decide)
    obtain ⟨m1, h1⟩ := hallerr 1 (by decide)
    obtain ⟨m2, h2⟩ := hallerr 2 (by decide)
    by_cases hhit : (!(cachedStudentsMap doc now).isEmpty &&
        dictHas (cachedStudentsMap doc now) batch) = true
    · have hhas : dictHas (cachedStudentsMap doc now) batch = true := by
        have h3 := hhit
        simp only [Bool.and_eq_true] at h3
        exact h3.2
      by_cases hcnt : studentCount ((dictGet (cachedStudentsMap doc now) batch).getD
          emptyRecordSet) > 0
      · exact ⟨0, by simp [getStudentsByBatch, hhit, hcnt, hhas,
            isEmpty_eq_false_of_dictHas _ _ hhas]⟩
      · by_cases hkn : knownEmptyBatches.contains batch = true
        · have hknm : batch ∈ knownEmptyBatches := by simpa using hkn
          exact ⟨0, by simp [getStudentsByBatch, hhit, hcnt, hknm, hhas,
            isEmpty_eq_false_of_dictHas _ _ hhas]⟩
        · have hknm : batch ∉ knownEmptyBatches := by simpa using hkn
          exact ⟨3, by
            simp [getStudentsByBatch, hhit, hcnt, hknm, hsg, fetchAttempts, h0, h1, h2, hhas,
              isEmpty_eq_false_of_dictHas _ _ hhas]⟩
    · have hhasf : dictHas (cachedStudentsMap doc now) batch = false := by
        cases hmapc : cachedStudentsMap doc now with
        | nil => simp [dictHas, dictGet]
        | cons p rest =>
            rw [hmapc] at hhit
            simp at hhit
            exact hhit
      exact ⟨3, by
        simp [getStudentsByBatch, hhit, fetchAttempts, h0, h1, h2, hhasf]⟩
  · intro hkn hcnt hfail elast hlast hcl
    have hknm : batch ∉ knownEmptyBatches := by simpa using hkn
    have hreach : getStudentsByBatch doc now batch upstream =
        fetchAttempts doc now batch (cachedStudentsMap doc now) upstream 3 0 0 [] := by
      by_cases hhit : (!(cachedStudentsMap doc now).isEmpty &&
          dictHas (cachedStudentsMap doc now) batch) = true
      · simp [getStudentsByBatch, hhit, hcnt, hknm, hsg]
      · simp [getStudentsByBatch, hhit]
    rw [hreach]
    rcases hfail 0 (by decide) with ⟨m0, h0⟩ | ⟨e0, h0, hc0⟩ <;>
      rcases hfail 1 (by decide) with ⟨m1, h1⟩ | ⟨e1, h1, hc1⟩
    · simp [fetchAttempts, h0, h1, hlast, hcl, hkn, hknm]
    · simp [fetchAttempts, h0, h1, hc1, hlast, hcl, hkn, hknm]
    · simp [fetchAttempts, h0, hc0, h1, hlast, hcl, hkn, hknm]
    · simp [fetchAttempts, h0, hc0, h1, hc1, hlast, hcl, hkn, hknm]

theorem c6_no_raise_and_fallback_witness :
    ∃ n, getStudentsByBatch c6WDoc 100 "b2" c6WUp =
      Except.ok ⟨⟨some []⟩, c6WDoc, n, []⟩ :=
  (c6_no_raise_and_fallback c6WDoc 100 "b2" c6WUp).2.1
    (fun _ _ => ⟨"connection refused", rfl⟩)
